import Mathlib

/-!
Shallow embedding of the command-monitoring (APM) layer of a MongoDB driver
connection subsystem: `lib/connection/apm.js` (command/reply normalization,
sensitive-command redaction, Started/Succeeded/Failed event construction),
together with spec-modelled fragments of the Connection dispatch/timeout logic
and `hasSessionSupport`, whose sources are not part of this snapshot (only
their unit tests are).

JavaScript documents are modelled as insertion-ordered association lists of
string keys and values; `undefined` is an explicit value, so a key mapped to
`undefined` is distinguishable from an absent key exactly where the source
distinguishes them (`typeof x !== 'undefined'` versus truthiness).  Functions
that can raise a TypeError in the source (reading a property of `undefined`)
return `Option`.
-/

namespace Apm

/-- A JavaScript value, restricted to the shapes this layer manipulates. -/
inductive Value where
  | vInt : Int → Value
  | vStr : String → Value
  | vBool : Bool → Value
  | vDoc : List (String × Value) → Value
  | vArr : List Value → Value
  | vUndefined : Value
deriving Repr

/-- A JS object: insertion-ordered key/value list (no duplicate keys arise in
this development; writes go through `docSet`, which updates in place). -/
abbrev Doc := List (String × Value)

/-- JS property read on an object: `undefined` when the key is absent. -/
def getField : Doc → String → Value
  | [], _ => .vUndefined
  | (k, v) :: rest, key => if k = key then v else getField rest key

/-- JS property read on an arbitrary value.  Reading a property of a
non-object primitive yields `undefined` (as in JS); the one place the source
can read a property of `undefined` itself (a TypeError) is special-cased in
`extractCommand`. -/
def Value.getProp : Value → String → Value
  | .vDoc d, k => getField d k
  | _, _ => .vUndefined

/-- Is this value JS `undefined`?  (`typeof x !== 'undefined'` is `!isUndefined`.) -/
def Value.isUndefined : Value → Bool
  | .vUndefined => true
  | _ => false

/-- JS truthiness for the values of this model. -/
def truthy : Value → Bool
  | .vUndefined => false
  | .vBool b => b
  | .vInt n => !(n == 0)
  | .vStr s => !(s == "")
  | .vDoc _ => true
  | .vArr _ => true

/-- JS property assignment `d[k] = v`: overwrite in place if the key exists,
otherwise append (insertion order preserved). -/
def docSet (d : Doc) (k : String) (v : Value) : Doc :=
  if d.any (fun p => p.1 == k) then
    d.map (fun p => if p.1 = k then (k, v) else p)
  else
    d ++ [(k, v)]

/-- JS `String.prototype.split` with a one-character separator, on the
character list: empty segments are kept, and splitting the empty string gives
one empty segment. -/
def jsSplit : List Char → Char → List (List Char)
  | [], _ => [[]]
  | c :: rest, sep =>
    let r := jsSplit rest sep
    if c = sep then [] :: r
    else
      match r with
      | [] => [[c]]
      | h :: t => (c :: h) :: t

/-- `ns.split('.')[i]` : the i-th segment as a JS value, `undefined` when the
index is past the end. -/
def splitIdx (ns : String) (i : Nat) : Value :=
  match (jsSplit ns.data '.').drop i with
  | [] => .vUndefined
  | seg :: _ => .vStr (String.mk seg)

/-- The wire command dispatched on a connection: a `GetMore` instance, a
`KillCursor` instance, or a plain command object (`Query`/`Msg`), represented
by its enumerable own fields in insertion order plus its namespace string and
request id (always a string / number on the real command classes). -/
inductive Command where
  | getMore (ns : String) (cursorId : Value) (numberToReturn : Value) (requestId : Int)
  | killCursor (ns : String) (cursorIds : List Value) (requestId : Int)
  | query (ns : String) (fields : Doc) (requestId : Int)
deriving Repr

def Command.ns : Command → String
  | .getMore n _ _ _ => n
  | .killCursor n _ _ => n
  | .query n _ _ => n

def Command.requestId : Command → Int
  | .getMore _ _ _ r => r
  | .killCursor _ _ r => r
  | .query _ _ r => r

/-- `SENSITIVE_COMMANDS` (apm.js:6). -/
def SENSITIVE_COMMANDS : List String :=
  ["authenticate", "saslStart", "saslContinue", "getnonce", "createUser",
   "updateUser", "copydbgetnonce", "copydbsaslstart", "copydb"]

/-- `extractCommandName = command => Object.keys(command)[0]` (apm.js:19):
the first field name of the document, `undefined` (`none`) when there is
none. -/
def extractCommandName : Value → Option String
  | .vDoc ((k, _) :: _) => some k
  | _ => none

/-- `SENSITIVE_COMMANDS.has(commandName)`; `has(undefined)` is `false`. -/
def isSensitive : Option String → Bool
  | some n => SENSITIVE_COMMANDS.contains n
  | none => false

/-- `calculateDuration = started => Date.now() - started` (apm.js:20); the
current wall clock is an explicit parameter. -/
def calculateDuration (now started : Int) : Int := now - started

/-- The pool that originated the command, as used here: its host and port. -/
structure Pool where
  host : String
  port : Nat
deriving Repr

/-- `generateConnectionId` (apm.js:21). -/
def generateConnectionId (pool : Pool) : String :=
  pool.host ++ ":" ++ toString pool.port

/-- `maybeRedact` (apm.js:22): an empty document for sensitive command names,
the result unchanged otherwise. -/
def maybeRedact (commandName : Option String) (result : Value) : Value :=
  if isSensitive commandName then .vDoc [] else result

/-- `LEGACY_FIND_QUERY_MAP` (apm.js:25), in source key order. -/
def LEGACY_FIND_QUERY_MAP : List (String × String) :=
  [("$query", "filter"), ("$orderby", "sort"), ("$hint", "hint"),
   ("$comment", "comment"), ("$maxScan", "maxScan"), ("$max", "max"),
   ("$min", "min"), ("$returnKey", "returnKey"), ("$showDiskLoc", "showRecordId"),
   ("$maxTimeMS", "maxTimeMS"), ("$snapshot", "snapshot")]

/-- `LEGACY_FIND_OPTIONS_MAP` (apm.js:39). -/
def LEGACY_FIND_OPTIONS_MAP : List (String × String) :=
  [("numberToSkip", "skip"), ("numberToReturn", "batchSize"),
   ("returnFieldsSelector", "projection")]

/-- `OP_QUERY_KEYS` (apm.js:45). -/
def OP_QUERY_KEYS : List String :=
  ["tailable", "oplogReplay", "noCursorTimeout", "awaitData", "partial", "exhaust"]

/-- The legacy-find detection condition used twice in the source
(apm.js:76 and apm.js:127):
`command.query && typeof command.query.$query !== 'undefined'`. -/
def isLegacyFind (fields : Doc) : Bool :=
  truthy (getField fields "query") && !((getField fields "query").getProp "$query").isUndefined

/-- The `result` object built by the legacy-find branch of `extractCommand`
(apm.js:78-95): `{find: ns.split('.')[1]}`, then the defined `$`-modifiers,
then the defined legacy options, then the truthy OP_QUERY flags, then
`pre32Limit` as `limit`. -/
def legacyFindDoc (ns : String) (fields : Doc) : Doc :=
  let q := getField fields "query"
  let opts := getField fields "options"
  let result : Doc := [("find", splitIdx ns 1)]
  let result := LEGACY_FIND_QUERY_MAP.foldl
    (fun acc kv => if !(q.getProp kv.1).isUndefined then docSet acc kv.2 (q.getProp kv.1) else acc)
    result
  let result := LEGACY_FIND_OPTIONS_MAP.foldl
    (fun acc kv => if !(opts.getProp kv.1).isUndefined then docSet acc kv.2 (opts.getProp kv.1) else acc)
    result
  let result := OP_QUERY_KEYS.foldl
    (fun acc k => if truthy (getField fields k) then docSet acc k (getField fields k) else acc)
    result
  if !(getField fields "pre32Limit").isUndefined then docSet result "limit" (getField fields "pre32Limit")
  else result

/-- `extractCommand` (apm.js:60).  `none` models the one TypeError the source
can raise on the legacy-find path: `command.options[key]` when
`command.options` is `undefined`. -/
def extractCommand (command : Command) : Option Value :=
  match command with
  | .getMore ns cursorId numberToReturn _ =>
    some (.vDoc [("getMore", cursorId), ("collection", splitIdx ns 1),
                 ("batchSize", numberToReturn)])
  | .killCursor ns cursorIds _ =>
    some (.vDoc [("killCursors", splitIdx ns 1), ("cursors", .vArr cursorIds)])
  | .query ns fields _ =>
    let q := getField fields "query"
    if isLegacyFind fields then
      if (getField fields "options").isUndefined then none
      else
        let result := legacyFindDoc ns fields
        if truthy (q.getProp "$explain") then some (.vDoc [("explain", .vDoc result)])
        else some (.vDoc result)
    else if truthy q then some q
    else some (.vDoc fields)

/-- The wire reply as this layer reads it: `reply.message.cursorId`,
`reply.message.documents`, `reply.result`. -/
structure ReplyMessage where
  cursorId : Value
  documents : List Value
deriving Repr

structure Reply where
  message : ReplyMessage
  result : Value
deriving Repr

/-- `extractReply` (apm.js:107). -/
def extractReply (command : Command) (reply : Reply) : Value :=
  match command with
  | .getMore ns _ _ _ =>
    .vDoc [("ok", .vInt 1),
           ("cursor", .vDoc [("id", reply.message.cursorId), ("ns", .vStr ns),
                             ("nextBatch", .vArr reply.message.documents)])]
  | .killCursor _ cursorIds _ =>
    .vDoc [("ok", .vInt 1), ("cursorsUnknown", .vArr cursorIds)]
  | .query ns fields _ =>
    if isLegacyFind fields then
      .vDoc [("ok", .vInt 1),
             ("cursor", .vDoc [("id", reply.message.cursorId), ("ns", .vStr ns),
                               ("firstBatch", .vArr reply.message.documents)])]
    else reply.result

/-- `CommandStartedEvent` (apm.js:142).  `commandObj` is the extra name-only
marker field the constructor attaches for sensitive commands (apm.js:154-157);
it is absent (`none`) otherwise.  Note that the `command` field is assigned the
extracted command unconditionally (apm.js:159-165). -/
structure CommandStartedEvent where
  commandObj : Option Doc
  command : Value
  databaseName : Value
  commandName : Option String
  requestId : Int
  connectionId : String
deriving Repr

/-- The `CommandStartedEvent` constructor; `none` when `extractCommand`
raises. -/
def mkCommandStartedEvent (pool : Pool) (command : Command) : Option CommandStartedEvent :=
  (extractCommand command).map fun cmd =>
    let commandName := extractCommandName cmd
    { commandObj :=
        if isSensitive commandName then some [(commandName.getD "undefined", .vBool true)]
        else none
      command := cmd
      databaseName := splitIdx command.ns 0
      commandName := extractCommandName cmd
      requestId := command.requestId
      connectionId := generateConnectionId pool }

/-- `CommandSucceededEvent` (apm.js:170). -/
structure CommandSucceededEvent where
  duration : Int
  commandName : Option String
  reply : Value
  requestId : Int
  connectionId : String
deriving Repr

/-- The `CommandSucceededEvent` constructor; the wall clock `now` is explicit. -/
def mkCommandSucceededEvent (pool : Pool) (command : Command) (reply : Reply)
    (started now : Int) : Option CommandSucceededEvent :=
  (extractCommand command).map fun cmd =>
    let commandName := extractCommandName cmd
    { duration := calculateDuration now started
      commandName := commandName
      reply := maybeRedact commandName (extractReply command reply)
      requestId := command.requestId
      connectionId := generateConnectionId pool }

/-- `CommandFailedEvent` (apm.js:194). -/
structure CommandFailedEvent where
  duration : Int
  commandName : Option String
  failure : Value
  requestId : Int
  connectionId : String
deriving Repr

/-- The `CommandFailedEvent` constructor; the error is the raw error or server
error response value. -/
def mkCommandFailedEvent (pool : Pool) (command : Command) (error : Value)
    (started now : Int) : Option CommandFailedEvent :=
  (extractCommand command).map fun cmd =>
    let commandName := extractCommandName cmd
    { duration := calculateDuration now started
      commandName := commandName
      failure := maybeRedact commandName error
      requestId := command.requestId
      connectionId := generateConnectionId pool }

/-- The call `extractCommand(command)` together with the command object as it
stands when the call returns.  The source's only assignments write to the
fresh `result` literal (apm.js:78-98), never to `command`, so the command is
returned unchanged: the embedding records that fact so it can be stated. -/
def extractCommandCall (command : Command) : Option Value × Command :=
  (extractCommand command, command)

/-- One emitted monitoring event. -/
inductive CommandEvent where
  | started (e : CommandStartedEvent)
  | succeeded (e : CommandSucceededEvent)
  | failed (e : CommandFailedEvent)
deriving Repr

def isStartedEvent : CommandEvent → Bool
  | .started _ => true
  | _ => false

def isTerminalEvent : CommandEvent → Bool
  | .started _ => false
  | .succeeded _ => true
  | .failed _ => true

def CommandEvent.reqId : CommandEvent → Int
  | .started e => e.requestId
  | .succeeded e => e.requestId
  | .failed e => e.requestId

def CommandEvent.connId : CommandEvent → String
  | .started e => e.connectionId
  | .succeeded e => e.connectionId
  | .failed e => e.connectionId

/-- The single outcome a non-fire-and-forget dispatch ends with: a server
reply, or a transport/protocol error. -/
inductive Outcome where
  | reply (r : Reply)
  | failure (e : Value)
deriving Repr

/-- Modelled from the spec: the event emission of `Connection.dispatch`
(spec section 4.3, steps 2, 4 and 5).  The Connection source is not part of
this repository snapshot (only `apm.js` and the unit tests are); the event
records themselves are built by the real `apm.js` embedding above.  A
monitored dispatch emits one Started event; a fire-and-forget dispatch
(`options.noResponse`) emits no terminal event; otherwise the single outcome
yields exactly one Succeeded or one Failed event. -/
def dispatchEvents (pool : Pool) (command : Command) (noResponse : Bool)
    (outcome : Outcome) (started now : Int) : Option (List CommandEvent) := do
  let s ← mkCommandStartedEvent pool command
  if noResponse then
    return [.started s]
  else
    match outcome with
    | .reply r => do
      let e ← mkCommandSucceededEvent pool command r started now
      return [.started s, .succeeded e]
    | .failure err => do
      let e ← mkCommandFailedEvent pool command err started now
      return [.started s, .failed e]

/-- Connection lifecycle states (spec section 4.3). -/
inductive ConnectionLifecycle where
  | opened
  | closing
  | closed
deriving Repr, DecidableEq

/-- Modelled from the spec: the Connection state this layer's timeout logic
touches (spec sections 3 and 4.3) — lifecycle state, whether the transport
stream has been destroyed, and the pending waiters keyed by request id.  The
Connection source is not part of this repository snapshot. -/
structure ConnectionModel where
  lifecycle : ConnectionLifecycle
  streamDestroyed : Bool
  pendingWaiters : List Int
deriving Repr

/-- Modelled from the spec: registering a pending waiter for a
non-fire-and-forget dispatch (spec section 4.3, step 5). -/
def registerWaiter (c : ConnectionModel) (rid : Int) : ConnectionModel :=
  { c with pendingWaiters := c.pendingWaiters ++ [rid] }

/-- Modelled from the spec: socket-timeout teardown (spec section 4.3, step 6,
and section 5).  The Connection source is not part of this repository
snapshot; its unit test `should destroy streams which time out` checks
`conn.stream.destroyed` after the timeout.  The whole transport is destroyed,
every pending waiter is resolved with a timeout error, and the connection
transitions to CLOSED. -/
def onSocketTimeout (c : ConnectionModel) : ConnectionModel × List (Int × String) :=
  ({ lifecycle := .closed, streamDestroyed := true, pendingWaiters := [] },
   c.pendingWaiters.map (fun rid => (rid, "timed out")))

/-- Modelled from the spec: the Connection attributes `hasSessionSupport`
reads (spec sections 4.3 and 6: the pool supplies
`{hostAddress, logicalSessionTimeoutMinutes?, loadBalanced?}`).  The
`cmap/connection` source is not part of this repository snapshot (only its
unit test is). -/
structure CmapConnection where
  logicalSessionTimeoutMinutes : Option Int
  loadBalanced : Bool
deriving Repr

/-- Modelled from the spec: `hasSessionSupport(connection)` (spec section
4.3): true if the connection carries a defined server-advertised
session-timeout value, true if it is marked load-balanced regardless of that
value, false otherwise. -/
def hasSessionSupport (c : CmapConnection) : Bool :=
  c.logicalSessionTimeoutMinutes.isSome || c.loadBalanced

/-! Concrete inputs used by counterexamples and witnesses. -/

def examplePool : Pool := { host := "localhost", port := 27017 }

/-- A `saslStart` command (a sensitive command) wrapped the way the Query
class presents it: the command document under its `query` field. -/
def saslCommand : Command :=
  .query "admin.$cmd"
    [("query", .vDoc [("saslStart", .vInt 1), ("payload", .vStr "secret")])]
    42

/-- A plain non-sensitive command. -/
def pingCommand : Command :=
  .query "admin.$cmd" [("query", .vDoc [("ping", .vInt 1)])] 7

/-- The legacy-find input of spec section 8:
`{query:{$query:{a:1}, $orderby:{b:1}}, options:{numberToSkip:5, numberToReturn:10}, ns:'db.coll'}`. -/
def legacyFields : Doc :=
  [("query", .vDoc [("$query", .vDoc [("a", .vInt 1)]), ("$orderby", .vDoc [("b", .vInt 1)])]),
   ("options", .vDoc [("numberToSkip", .vInt 5), ("numberToReturn", .vInt 10)])]

def legacyFindExample : Command := .query "db.coll" legacyFields 0

def exampleReply : Reply :=
  { message := { cursorId := .vInt 0, documents := [] }
    result := .vDoc [("ok", .vInt 1)] }

def saslStartedEvent : CommandStartedEvent :=
  { commandObj := some [("saslStart", .vBool true)]
    command := .vDoc [("saslStart", .vInt 1), ("payload", .vStr "secret")]
    databaseName := .vStr "admin"
    commandName := some "saslStart"
    requestId := 42
    connectionId := "localhost:27017" }

def saslSucceededEvent : CommandSucceededEvent :=
  { duration := 5
    commandName := some "saslStart"
    reply := .vDoc []
    requestId := 42
    connectionId := "localhost:27017" }

def saslFailedEvent : CommandFailedEvent :=
  { duration := 5
    commandName := some "saslStart"
    failure := .vDoc []
    requestId := 42
    connectionId := "localhost:27017" }

def pingStartedEvent : CommandStartedEvent :=
  { commandObj := none
    command := .vDoc [("ping", .vInt 1)]
    databaseName := .vStr "admin"
    commandName := some "ping"
    requestId := 7
    connectionId := "localhost:27017" }

def pingSucceededEvent : CommandSucceededEvent :=
  { duration := 5
    commandName := some "ping"
    reply := .vDoc [("ok", .vInt 1)]
    requestId := 7
    connectionId := "localhost:27017" }

def pingFailedEvent : CommandFailedEvent :=
  { duration := 5
    commandName := some "ping"
    failure := .vStr "boom"
    requestId := 7
    connectionId := "localhost:27017" }

/-- The event list a monitored, non-fire-and-forget dispatch of `pingCommand`
that ends in an error produces. -/
def pingDispatchEvents : List CommandEvent :=
  [.started pingStartedEvent, .failed pingFailedEvent]

/-! Theorems. -/

/-- C1, counterexample: for the sensitive command `saslStart`, the Started
event built by `CommandStartedEvent` does NOT carry the name-only marker as
its `command` payload: its `command` field is the full sensitive command, so
the sensitive content (here the field `payload: "secret"`) appears verbatim
in a field of the emitted Started event. -/
theorem c1_started_not_redacted_cex :
    (mkCommandStartedEvent examplePool saslCommand).map CommandStartedEvent.command
      = some (Value.vDoc [("saslStart", Value.vInt 1), ("payload", Value.vStr "secret")]) ∧
    Value.vDoc [("saslStart", Value.vInt 1), ("payload", Value.vStr "secret")]
      ≠ Value.vDoc [("saslStart", Value.vBool true)] ∧
    isSensitive (some "saslStart") = true := by
  refine ⟨rfl, ?_, rfl⟩
  simp

/-- C1, amended: for every command whose normalized commandName is sensitive,
the Started event attaches the name-only marker as an extra `commandObj`
field, while its `command` payload remains the normalized command,
unredacted. -/
theorem c1_started_sensitive_marker (pool : Pool) (command : Command)
    (cmd : Value) (name : String) (ev : CommandStartedEvent)
    (hc : extractCommand command = some cmd)
    (hn : extractCommandName cmd = some name)
    (hs : SENSITIVE_COMMANDS.contains name = true)
    (hev : mkCommandStartedEvent pool command = some ev) :
    ev.commandObj = some [(name, Value.vBool true)] ∧ ev.command = cmd := by
  rw [mkCommandStartedEvent, hc, Option.map_some'] at hev
  injection hev with hev
  subst hev
  refine ⟨?_, rfl⟩
  simp [hn, isSensitive, hs]
  simpa using hs

/-- C1, witness: the amended statement at the concrete `saslStart` command. -/
theorem c1_started_sensitive_marker_witness :
    saslStartedEvent.commandObj = some [("saslStart", Value.vBool true)] ∧
    saslStartedEvent.command
      = Value.vDoc [("saslStart", Value.vInt 1), ("payload", Value.vStr "secret")] :=
  c1_started_sensitive_marker examplePool saslCommand
    (Value.vDoc [("saslStart", Value.vInt 1), ("payload", Value.vStr "secret")])
    "saslStart" saslStartedEvent rfl rfl (by decide) rfl

/-- C2, counterexample: `calculateDuration` does not clamp: a Succeeded event
built with a current clock value behind the start timestamp (clock skew)
carries a negative duration. -/
theorem c2_duration_negative_cex :
    (mkCommandSucceededEvent examplePool pingCommand exampleReply 5 0).map
        CommandSucceededEvent.duration = some (-5) ∧
    ((-5 : Int) < 0) := by
  exact ⟨rfl, by decide⟩

/-- C2, amended: for every Succeeded and Failed event, duration equals
`now - startedAt` with no clamping; it is non-negative exactly whenever the
current clock is not behind the start timestamp. -/
theorem c2_duration_unclamped (pool : Pool) (command : Command) (reply : Reply)
    (err : Value) (started now : Int)
    (se : CommandSucceededEvent) (fe : CommandFailedEvent)
    (h : started ≤ now)
    (hs : mkCommandSucceededEvent pool command reply started now = some se)
    (hf : mkCommandFailedEvent pool command err started now = some fe) :
    se.duration = calculateDuration now started ∧ 0 ≤ se.duration ∧
    fe.duration = calculateDuration now started ∧ 0 ≤ fe.duration := by
  cases hcmd : extractCommand command with
  | none =>
    rw [mkCommandSucceededEvent, hcmd] at hs
    exact absurd hs (by simp)
  | some cmd =>
    rw [mkCommandSucceededEvent, hcmd, Option.map_some'] at hs
    injection hs with hs
    subst hs
    rw [mkCommandFailedEvent, hcmd, Option.map_some'] at hf
    injection hf with hf
    subst hf
    refine ⟨rfl, ?_, rfl, ?_⟩ <;>
      simpa [calculateDuration] using h

/-- C2, witness: the amended statement at a concrete dispatch with
`startedAt = 0` and `now = 5`. -/
theorem c2_duration_unclamped_witness :
    pingSucceededEvent.duration = calculateDuration 5 0 ∧ 0 ≤ pingSucceededEvent.duration ∧
    pingFailedEvent.duration = calculateDuration 5 0 ∧ 0 ≤ pingFailedEvent.duration :=
  c2_duration_unclamped examplePool pingCommand exampleReply (Value.vStr "boom") 0 5
    pingSucceededEvent pingFailedEvent (by decide) rfl rfl

/-- C4: `extractCommand` upconverts the legacy find
`{query:{$query:{a:1}, $orderby:{b:1}}, options:{numberToSkip:5, numberToReturn:10}, ns:'db.coll'}`
to exactly `{find:'coll', filter:{a:1}, sort:{b:1}, skip:5, batchSize:10}`,
with `find` as the first inserted field (so it is the extracted command
name). -/
theorem c4_extractCommand_legacy_find :
    extractCommand legacyFindExample
      = some (Value.vDoc
          [("find", Value.vStr "coll"), ("filter", Value.vDoc [("a", Value.vInt 1)]),
           ("sort", Value.vDoc [("b", Value.vInt 1)]), ("skip", Value.vInt 5),
           ("batchSize", Value.vInt 10)]) ∧
    (extractCommand legacyFindExample).bind extractCommandName = some "find" :=
  ⟨rfl, rfl⟩

/-- C6: `extractCommand` is pure.  The embedding is a total function, so two
invocations on the same input are definitionally equal (including the field
list, which is insertion-ordered, so equality covers field order), and the
command object as it stands after the call (`extractCommandCall`) is the
input unchanged: the source writes only to its fresh `result` literal, never
to `command`. -/
theorem c6_extractCommand_pure (c : Command) :
    extractCommand c = extractCommand c ∧
    (extractCommandCall c).1 = extractCommand c ∧
    (extractCommandCall c).2 = c :=
  ⟨rfl, rfl, rfl⟩

/-- C3: for every command whose normalized commandName is sensitive, the
Succeeded event's `reply` and the Failed event's `failure` are exactly empty
documents; for every non-sensitive commandName they are, respectively, the
normalized reply (`extractReply`) and the raw error value, unchanged. -/
theorem c3_redaction (pool : Pool) (command : Command) (reply : Reply)
    (err : Value) (started now : Int) (cmd : Value)
    (se : CommandSucceededEvent) (fe : CommandFailedEvent)
    (hc : extractCommand command = some cmd)
    (hs : mkCommandSucceededEvent pool command reply started now = some se)
    (hf : mkCommandFailedEvent pool command err started now = some fe) :
    (isSensitive (extractCommandName cmd) = true →
       se.reply = Value.vDoc [] ∧ fe.failure = Value.vDoc []) ∧
    (isSensitive (extractCommandName cmd) = false →
       se.reply = extractReply command reply ∧ fe.failure = err) := by
  rw [mkCommandSucceededEvent, hc, Option.map_some'] at hs
  injection hs with hs
  subst hs
  rw [mkCommandFailedEvent, hc, Option.map_some'] at hf
  injection hf with hf
  subst hf
  constructor
  · intro hsens
    simp [maybeRedact, hsens]
  · intro hsens
    simp [maybeRedact, hsens]

/-- C3, witness: at the concrete sensitive `saslStart` command both terminal
payloads are the empty document. -/
theorem c3_redaction_witness :
    saslSucceededEvent.reply = Value.vDoc [] ∧ saslFailedEvent.failure = Value.vDoc [] :=
  (c3_redaction examplePool saslCommand exampleReply (Value.vStr "boom") 0 5
    (Value.vDoc [("saslStart", Value.vInt 1), ("payload", Value.vStr "secret")])
    saslSucceededEvent saslFailedEvent rfl rfl rfl).1 rfl

/-- C5: `extractReply` by command variant: GetMore yields
`{ok:1, cursor:{id, ns, nextBatch}}`; KillCursors yields
`{ok:1, cursorsUnknown: cursorIds}`; a legacy find (query document containing
`$query`) yields `{ok:1, cursor:{id, ns, firstBatch}}`; any other command
yields the reply's generic result document unchanged. -/
theorem c5_extractReply_cases :
    (∀ (ns : String) (cursorId numberToReturn : Value) (rid : Int) (reply : Reply),
      extractReply (Command.getMore ns cursorId numberToReturn rid) reply
        = Value.vDoc [("ok", Value.vInt 1),
            ("cursor", Value.vDoc [("id", reply.message.cursorId), ("ns", Value.vStr ns),
                                   ("nextBatch", Value.vArr reply.message.documents)])]) ∧
    (∀ (ns : String) (cursorIds : List Value) (rid : Int) (reply : Reply),
      extractReply (Command.killCursor ns cursorIds rid) reply
        = Value.vDoc [("ok", Value.vInt 1), ("cursorsUnknown", Value.vArr cursorIds)]) ∧
    (∀ (ns : String) (fields : Doc) (rid : Int) (reply : Reply),
      isLegacyFind fields = true →
      extractReply (Command.query ns fields rid) reply
        = Value.vDoc [("ok", Value.vInt 1),
            ("cursor", Value.vDoc [("id", reply.message.cursorId), ("ns", Value.vStr ns),
                                   ("firstBatch", Value.vArr reply.message.documents)])]) ∧
    (∀ (ns : String) (fields : Doc) (rid : Int) (reply : Reply),
      isLegacyFind fields = false →
      extractReply (Command.query ns fields rid) reply = reply.result) := by
  refine ⟨fun _ _ _ _ _ => rfl, fun _ _ _ _ => rfl, ?_, ?_⟩
  · intro ns fields rid reply h
    simp [extractReply, h]
  · intro ns fields rid reply h
    simp [extractReply, h]

/-- C5, witness: the legacy-find case and the generic case at concrete
inputs. -/
theorem c5_extractReply_witness :
    extractReply legacyFindExample exampleReply
      = Value.vDoc [("ok", Value.vInt 1),
          ("cursor", Value.vDoc [("id", Value.vInt 0), ("ns", Value.vStr "db.coll"),
                                 ("firstBatch", Value.vArr [])])] ∧
    extractReply pingCommand exampleReply = Value.vDoc [("ok", Value.vInt 1)] :=
  ⟨c5_extractReply_cases.2.2.1 "db.coll" legacyFields 0 exampleReply rfl,
   c5_extractReply_cases.2.2.2 "admin.$cmd" [("query", Value.vDoc [("ping", Value.vInt 1)])] 7
     exampleReply rfl⟩

/-- C7: a monitored, non-fire-and-forget dispatch emits exactly one Started
event and exactly one terminal event (Succeeded xor Failed), and every
emitted event carries the command's requestId and the connectionId derived
from the pool's host and port. -/
theorem c7_dispatch_correlation (pool : Pool) (command : Command)
    (outcome : Outcome) (started now : Int) (evs : List CommandEvent)
    (h : dispatchEvents pool command false outcome started now = some evs) :
    (evs.countP isStartedEvent = 1 ∧ evs.countP isTerminalEvent = 1) ∧
    ∀ e ∈ evs, CommandEvent.reqId e = command.requestId ∧
               CommandEvent.connId e = generateConnectionId pool := by
  cases hcmd : extractCommand command with
  | none =>
    rw [dispatchEvents] at h
    simp [mkCommandStartedEvent, hcmd] at h
  | some cmd =>
    cases outcome with
    | reply r =>
      rw [dispatchEvents] at h
      simp [mkCommandStartedEvent, mkCommandSucceededEvent, hcmd] at h
      subst h
      refine ⟨by simp [List.countP, List.countP.go, isStartedEvent, isTerminalEvent], ?_⟩
      intro e he
      rcases List.mem_cons.mp he with rfl | he
      · exact ⟨rfl, rfl⟩
      rcases List.mem_cons.mp he with rfl | he
      · exact ⟨rfl, rfl⟩
      · exact absurd he (List.not_mem_nil e)
    | failure err =>
      rw [dispatchEvents] at h
      simp [mkCommandStartedEvent, mkCommandFailedEvent, hcmd] at h
      subst h
      refine ⟨by simp [List.countP, List.countP.go, isStartedEvent, isTerminalEvent], ?_⟩
      intro e he
      rcases List.mem_cons.mp he with rfl | he
      · exact ⟨rfl, rfl⟩
      rcases List.mem_cons.mp he with rfl | he
      · exact ⟨rfl, rfl⟩
      · exact absurd he (List.not_mem_nil e)

/-- C7, witness: a concrete failed dispatch of `pingCommand` emits exactly
`[Started, Failed]`, both carrying requestId 7 and connectionId
`localhost:27017`. -/
theorem c7_dispatch_correlation_witness :
    (pingDispatchEvents.countP isStartedEvent = 1 ∧
     pingDispatchEvents.countP isTerminalEvent = 1) ∧
    ∀ e ∈ pingDispatchEvents,
      CommandEvent.reqId e = Command.requestId pingCommand ∧
      CommandEvent.connId e = generateConnectionId examplePool :=
  c7_dispatch_correlation examplePool pingCommand (Outcome.failure (Value.vStr "boom"))
    0 5 pingDispatchEvents rfl

/-- C8: on socket timeout the entire transport is destroyed, the timed-out
caller and every other pending waiter on the connection are resolved with a
timeout error (one resolution per waiter), and the connection transitions to
CLOSED with no waiter left pending. -/
theorem c8_timeout_teardown (c : ConnectionModel) (rid : Int)
    (hmem : rid ∈ c.pendingWaiters) :
    (onSocketTimeout c).1.streamDestroyed = true ∧
    (onSocketTimeout c).1.lifecycle = ConnectionLifecycle.closed ∧
    (rid, "timed out") ∈ (onSocketTimeout c).2 ∧
    (∀ r ∈ c.pendingWaiters, (r, "timed out") ∈ (onSocketTimeout c).2) ∧
    (onSocketTimeout c).2.length = c.pendingWaiters.length ∧
    (onSocketTimeout c).1.pendingWaiters = [] := by
  refine ⟨rfl, rfl, ?_, ?_, by simp [onSocketTimeout], rfl⟩
  · simp only [onSocketTimeout, List.mem_map]
    exact ⟨rid, hmem, rfl⟩
  · intro r hr
    simp only [onSocketTimeout, List.mem_map]
    exact ⟨r, hr, rfl⟩

/-- C8, witness: a connection with two pending waiters, one of which is the
timed-out dispatch. -/
theorem c8_timeout_teardown_witness :
    (onSocketTimeout ⟨ConnectionLifecycle.opened, false, [1, 2]⟩).1.streamDestroyed = true ∧
    (onSocketTimeout ⟨ConnectionLifecycle.opened, false, [1, 2]⟩).1.lifecycle
      = ConnectionLifecycle.closed ∧
    ((1 : Int), "timed out") ∈ (onSocketTimeout ⟨ConnectionLifecycle.opened, false, [1, 2]⟩).2 ∧
    (∀ r ∈ [(1 : Int), 2],
      (r, "timed out") ∈ (onSocketTimeout ⟨ConnectionLifecycle.opened, false, [1, 2]⟩).2) ∧
    (onSocketTimeout ⟨ConnectionLifecycle.opened, false, [1, 2]⟩).2.length
      = List.length [(1 : Int), 2] ∧
    (onSocketTimeout ⟨ConnectionLifecycle.opened, false, [1, 2]⟩).1.pendingWaiters = [] :=
  c8_timeout_teardown ⟨ConnectionLifecycle.opened, false, [1, 2]⟩ 1 (by decide)

/-- C9: `hasSessionSupport` is true for every connection with a defined
server-advertised session-timeout value, true for every load-balanced
connection regardless of that value, and false when neither condition
holds. -/
theorem c9_hasSessionSupport (c : CmapConnection) :
    (c.logicalSessionTimeoutMinutes.isSome = true → hasSessionSupport c = true) ∧
    (c.loadBalanced = true → hasSessionSupport c = true) ∧
    (c.logicalSessionTimeoutMinutes = none → c.loadBalanced = false →
       hasSessionSupport c = false) := by
  refine ⟨?_, ?_, ?_⟩
  · intro h
    simp [hasSessionSupport, h]
  · intro h
    simp [hasSessionSupport, h]
  · intro h1 h2
    simp [hasSessionSupport, h1, h2]

/-- Splitting a list that contains no separator yields the single segment. -/
theorem jsSplit_no_sep (l : List Char) (sep : Char) (h : ∀ c ∈ l, c ≠ sep) :
    jsSplit l sep = [l] := by
  induction l with
  | nil => rfl
  | cons c t ih =>
    have hc : c ≠ sep := h c (List.mem_cons_self c t)
    have ht : ∀ x ∈ t, x ≠ sep := fun x hx => h x (List.mem_cons_of_mem c hx)
    simp [jsSplit, hc, ih ht]

/-- `ns.split('.')[1]` is `undefined` when the namespace has no dot. -/
theorem splitIdx_no_dot (ns : String) (h : ∀ c ∈ ns.data, c ≠ '.') :
    splitIdx ns 1 = Value.vUndefined := by
  simp [splitIdx, jsSplit_no_sep ns.data '.' h]

theorem getField_map_set_ne (d : Doc) (k key : String) (v : Value) (h : k ≠ key) :
    getField (d.map (fun p => if p.1 = k then (k, v) else p)) key = getField d key := by
  induction d with
  | nil => rfl
  | cons p t ih =>
    obtain ⟨k1, v1⟩ := p
    simp only [List.map_cons]
    by_cases hk : k1 = k
    · subst hk
      rw [if_pos rfl]
      simp only [getField]
      rw [if_neg h, if_neg h]
      exact ih
    · rw [if_neg hk]
      simp only [getField]
      by_cases hk1 : k1 = key
      · rw [if_pos hk1, if_pos hk1]
      · rw [if_neg hk1, if_neg hk1]
        exact ih

theorem getField_append_ne (d : Doc) (k key : String) (v : Value) (h : k ≠ key) :
    getField (d ++ [(k, v)]) key = getField d key := by
  induction d with
  | nil => simp [getField, h]
  | cons p t ih =>
    obtain ⟨k1, v1⟩ := p
    by_cases hk : k1 = key <;> simp [getField, hk, ih]

/-- A JS assignment to a key other than `key` does not change the value read
at `key`. -/
theorem getField_docSet_ne (d : Doc) (k key : String) (v : Value) (h : k ≠ key) :
    getField (docSet d k v) key = getField d key := by
  rw [docSet]
  split
  · exact getField_map_set_ne d k key v h
  · exact getField_append_ne d k key v h

/-- A fold whose every step preserves the value at `key` preserves it
overall. -/
theorem getField_foldl_preserve {α : Type} (key : String) (step : Doc → α → Doc)
    (l : List α) (hstep : ∀ acc a, a ∈ l → getField (step acc a) key = getField acc key) :
    ∀ d : Doc, getField (l.foldl step d) key = getField d key := by
  induction l with
  | nil => intro d; rfl
  | cons a t ih =>
    intro d
    rw [List.foldl_cons, ih (fun acc b hb => hstep acc b (List.mem_cons_of_mem a hb))]
    exact hstep d a (List.mem_cons_self a t)

/-- None of the canonical field names the legacy-find upconversion copies into
the result is named `find`, so the initial `find` entry is never overwritten. -/
theorem legacy_targets_ne_find :
    (∀ kv ∈ LEGACY_FIND_QUERY_MAP, kv.2 ≠ "find") ∧
    (∀ kv ∈ LEGACY_FIND_OPTIONS_MAP, kv.2 ≠ "find") ∧
    (∀ k ∈ OP_QUERY_KEYS, k ≠ "find") := by
  decide

/-- The `find` field of the legacy-find result is exactly the namespace's
second dot-segment. -/
theorem legacyFindDoc_find (ns : String) (fields : Doc) :
    getField (legacyFindDoc ns fields) "find" = splitIdx ns 1 := by
  have hq := legacy_targets_ne_find.1
  have ho := legacy_targets_ne_find.2.1
  have hk := legacy_targets_ne_find.2.2
  have base : getField ([("find", splitIdx ns 1)] : Doc) "find" = splitIdx ns 1 := by
    simp [getField]
  have s1 : ∀ d : Doc,
      getField (LEGACY_FIND_QUERY_MAP.foldl
        (fun acc kv =>
          if !((getField fields "query").getProp kv.1).isUndefined then
            docSet acc kv.2 ((getField fields "query").getProp kv.1)
          else acc) d) "find" = getField d "find" := by
    apply getField_foldl_preserve
    intro acc kv hkv
    split
    · exact getField_docSet_ne _ _ _ _ (hq kv hkv)
    · rfl
  have s2 : ∀ d : Doc,
      getField (LEGACY_FIND_OPTIONS_MAP.foldl
        (fun acc kv =>
          if !((getField fields "options").getProp kv.1).isUndefined then
            docSet acc kv.2 ((getField fields "options").getProp kv.1)
          else acc) d) "find" = getField d "find" := by
    apply getField_foldl_preserve
    intro acc kv hkv
    split
    · exact getField_docSet_ne _ _ _ _ (ho kv hkv)
    · rfl
  have s3 : ∀ d : Doc,
      getField (OP_QUERY_KEYS.foldl
        (fun acc k =>
          if truthy (getField fields k) then docSet acc k (getField fields k) else acc)
        d) "find" = getField d "find" := by
    apply getField_foldl_preserve
    intro acc k hkmem
    split
    · exact getField_docSet_ne _ _ _ _ (hk k hkmem)
    · rfl
  simp only [legacyFindDoc]
  split
  · rw [getField_docSet_ne _ _ _ _ (by decide), s3, s2, s1, base]
  · rw [s3, s2, s1, base]

/-- C10: for every GetMore, KillCursors or legacy-find command whose
namespace has no `.` separator, `extractCommand` still returns a document
(no TypeError), but the collection-valued field (`collection`, `killCursors`
and `find` respectively) is `undefined`, because only the segment after the
first `.` is used as the collection name. -/
theorem c10_ns_without_dot (ns : String) (h : ∀ c ∈ ns.data, c ≠ '.') :
    (∀ (cursorId numberToReturn : Value) (rid : Int),
      extractCommand (Command.getMore ns cursorId numberToReturn rid)
        = some (Value.vDoc [("getMore", cursorId), ("collection", Value.vUndefined),
                            ("batchSize", numberToReturn)])) ∧
    (∀ (cursorIds : List Value) (rid : Int),
      extractCommand (Command.killCursor ns cursorIds rid)
        = some (Value.vDoc [("killCursors", Value.vUndefined),
                            ("cursors", Value.vArr cursorIds)])) ∧
    (∀ (fields : Doc) (rid : Int),
      isLegacyFind fields = true →
      (getField fields "options").isUndefined = false →
      (extractCommand (Command.query ns fields rid)).isSome = true ∧
      getField (legacyFindDoc ns fields) "find" = Value.vUndefined) := by
  have hsp := splitIdx_no_dot ns h
  refine ⟨?_, ?_, ?_⟩
  · intro cid n rid
    simp [extractCommand, hsp]
  · intro cids rid
    simp [extractCommand, hsp]
  · intro fields rid hleg hopt
    constructor
    · simp only [extractCommand, hleg, hopt]
      split
      · split
        · next hff => exact absurd hff (by simp)
        · split <;> rfl
      · next hfalse => exact absurd trivial hfalse
    · rw [legacyFindDoc_find, hsp]

/-- C10, witness: namespace `dbonly` (no dot): the GetMore translation has an
undefined `collection`, and the legacy-find translation still produces a
document whose `find` field is undefined. -/
theorem c10_ns_without_dot_witness :
    extractCommand (Command.getMore "dbonly" (Value.vInt 3) (Value.vInt 4) 1)
      = some (Value.vDoc [("getMore", Value.vInt 3), ("collection", Value.vUndefined),
                          ("batchSize", Value.vInt 4)]) ∧
    ((extractCommand (Command.query "dbonly" legacyFields 0)).isSome = true ∧
     getField (legacyFindDoc "dbonly" legacyFields) "find" = Value.vUndefined) :=
  ⟨(c10_ns_without_dot "dbonly" (by decide)).1 (Value.vInt 3) (Value.vInt 4) 1,
   (c10_ns_without_dot "dbonly" (by decide)).2.2 legacyFields 0 rfl rfl⟩

/-- C9, witness: the three unit-test cases: session-timeout 5 (true),
load-balanced with undefined timeout (true), neither (false). -/
theorem c9_hasSessionSupport_witness :
    hasSessionSupport ⟨some 5, false⟩ = true ∧
    hasSessionSupport ⟨none, true⟩ = true ∧
    hasSessionSupport ⟨none, false⟩ = false :=
  ⟨(c9_hasSessionSupport ⟨some 5, false⟩).1 rfl,
   (c9_hasSessionSupport ⟨none, true⟩).2.1 rfl,
   (c9_hasSessionSupport ⟨none, false⟩).2.2 rfl rfl⟩

end Apm
